import Mathlib

set_option maxRecDepth 10000

/-!
Shallow embedding of the fetch/download pipeline of `Worker.run`
(src/main.py, class `Worker`).  Pure string manipulation mirrors the
Python standard-library helpers the code calls (`str.strip`, slicing,
`in`, `os.path.basename`, `os.path.splitext`, `urllib.parse.urlparse`,
`re.sub`); network and filesystem interaction is modelled as an explicit
environment, and the per-run event stream (Qt signal emissions plus
filesystem effects) as a trace.
-/

/-- Python `str.strip()` (ASCII whitespace suffices for the bodies involved). -/
def pyStrip (s : String) : String :=
  String.mk (((s.data.dropWhile Char.isWhitespace).reverse.dropWhile
    Char.isWhitespace).reverse)

/-- Python slicing `s[:n]` (by characters, as Python slices). -/
def strTake (s : String) (n : Nat) : String := String.mk (s.data.take n)

/-- Python `str.lower()` (ASCII case suffices for the phrases involved). -/
def strToLower (s : String) : String := String.mk (s.data.map Char.toLower)

def isPrefixL : List Char → List Char → Bool
  | [], _ => true
  | _ :: _, [] => false
  | a :: as, b :: bs => a = b && isPrefixL as bs

/-- Python substring membership `pat in s`. -/
def strContains (pat s : String) : Bool :=
  (List.range (s.data.length + 1)).any (fun i => isPrefixL pat.data (s.data.drop i))

/-- Index of the last occurrence of `c` (Python `str.rfind`, as an `Option`). -/
def lastIdxOf (c : Char) : List Char → Option Nat
  | [] => none
  | x :: xs =>
    match lastIdxOf c xs with
    | some i => some (i + 1)
    | none => if x = c then some 0 else none

/-- Start index of the final path component (one past the last '/'). -/
def fnStart (cs : List Char) : Nat :=
  match lastIdxOf '/' cs with
  | none => 0
  | some i => i + 1

/-- `os.path.basename` (POSIX): everything after the last '/'. -/
def pyBasename (p : String) : String := String.mk (p.data.drop (fnStart p.data))

/-- The extension part of `os.path.splitext(p)[1]`: the suffix from the last
'.' when that dot lies in the final path component and is not part of the
component's leading run of dots. -/
def splitextExt (p : String) : String :=
  let cs := p.data
  let fs := fnStart cs
  match lastIdxOf '.' cs with
  | none => ""
  | some d =>
    if fs ≤ d ∧ ((List.range d).drop fs).any (fun k => cs.getD k ' ' ≠ '.') then
      String.mk (cs.drop d)
    else ""

/-- The characters replaced by `re.sub(r'[<>:"/\\|?*]', '_', ...)`. -/
def illegalChars : List Char := ['<', '>', ':', '\"', '/', '\\', '|', '?', '*']

def sanChar (c : Char) : Char := if c ∈ illegalChars then '_' else c

/-- `re.sub(r'[<>:"/\\|?*]', '_', s)`. -/
def sanitize (s : String) : String := String.mk (s.data.map sanChar)

/-- The characters after the first `"://"` marker, when one is present. -/
def afterSchemeMarker : List Char → Option (List Char)
  | [] => none
  | c :: rest =>
    if c = ':' then
      match rest with
      | '/' :: '/' :: tail => some tail
      | _ => afterSchemeMarker rest
    else afterSchemeMarker rest

/-- `urlparse(url).path` for the URL shapes the program meets: drop any
fragment and query, then (when a `scheme://netloc` head is present) drop
the scheme and authority, keeping the path from its leading '/'. -/
def urlparsePath (url : String) : String :=
  let u := url.data.takeWhile (fun c => c ≠ '#')
  let u := u.takeWhile (fun c => c ≠ '?')
  match afterSchemeMarker u with
  | none => String.mk u
  | some tail => String.mk (tail.dropWhile (fun c => c ≠ '/'))

/-- Lines 126-133: derive the on-disk filename for a post from its id and
file URL.  When the URL basename is absent or has no dot, synthesize
`{post_id}{ext or ".jpg"}`; otherwise sanitize `{post_id}_{basename}`. -/
def deriveFilename (postId url : String) : String :=
  let path := urlparsePath url
  let fn := pyBasename path
  if fn = "" ∨ '.' ∉ fn.data then
    let ext0 := splitextExt path
    let ext := if ext0 = "" then ".jpg" else ext0
    postId ++ ext
  else
    sanitize (postId ++ "_" ++ fn)

/-- One record of the accumulated post list.  `raw` is any JSON value that
is not a dict (`isinstance(post, dict)` fails); `rec` carries the
`file_url` and `id` lookups (absent field = `none`; the id is modelled
already stringified, as `f"{post_id}"` makes it). -/
inductive Post where
  | raw : Post
  | obj (fileUrl : Option String) (pid : Option String) : Post
deriving DecidableEq, Repr

/-- The parse result of `response.json()` when it succeeds: a bare list,
a dict (with the looked-up fields: `success`, `message`, `post`, and the
flattened `@attributes`/`count`), or any other JSON type. -/
inductive JData where
  | list (posts : List Post) : JData
  | dict (success : Option Bool) (message : Option String)
      (post : Option (List Post)) (attrCount : Option Nat) : JData
  | other (typeDesc : String) : JData
deriving DecidableEq, Repr

/-- One page response from `requests.get`: HTTP status, raw body text,
the outcome of `response.json()` (`none` = `ValueError`), and the
stringified parse exception used in the error message. -/
structure Response where
  status : Nat
  bodyText : String
  parsed : Option JData
  parseMsg : String
deriving DecidableEq, Repr

def apiErrDefault : String := "Неизвестная ошибка API"

/-- The localized status messages, kept structural (translator key plus
the values substituted by `.format`). -/
inductive StatusMsg where
  | gettingPosts : StatusMsg
  | httpError (status : Nat) (excerpt : String) : StatusMsg
  | emptyResponse (status : Nat) : StatusMsg
  | jsonErrorAuth (excerpt : String) : StatusMsg
  | jsonError (detail : String) (excerpt : String) : StatusMsg
  | apiError (msg : String) : StatusMsg
  | unexpectedType (typeDesc : String) (excerpt : String) : StatusMsg
  | receivedPosts (count : Nat) (totalStr : String) : StatusMsg
  | noPosts : StatusMsg
  | startingDownload : StatusMsg
  | processedDownloaded (processed total downloaded : Nat) : StatusMsg
  | downloadError (url : String) (detail : String) : StatusMsg
  | finished (processed total downloaded skipped : Nat) (dir : String) : StatusMsg
  | unexpectedError (detail : String) : StatusMsg
deriving DecidableEq, Repr

/-- Observable steps of one run: the two Qt signals, page requests, and
filesystem effects. -/
inductive Effect where
  | status (m : StatusMsg) : Effect
  | progress (current total : Nat) : Effect
  | requestPage (pid : Nat) : Effect
  | mkDir (path : String) : Effect
  | writeFile (path : String) : Effect
deriving DecidableEq, Repr

/-- Fetch-loop state: accumulated posts, `total_count`, `has_total`, `pid`. -/
structure FetchState where
  posts : List Post
  totalCount : Nat
  hasTotal : Bool
  pid : Nat
deriving DecidableEq, Repr

/-- Outcome of handling one page body: an early `return` after a terminal
status (`fail`), a propagating exception (`exc`), or the next state
together with the short-page flag `len(new_posts) < 1000`. -/
inductive PageOut where
  | fail : PageOut
  | exc (msg : String) : PageOut
  | next (st : FetchState) (short : Bool) : PageOut
deriving DecidableEq, Repr

def paginationNote : String := "pagination_note"

/-- `response.text.strip()[:200]`. -/
def pageExcerpt (r : Response) : String := strTake (pyStrip r.bodyText) 200

/-- Lines 56-99: handle one page response (request already issued; an
`Except.error` models `requests.get` itself raising). -/
def processPage (resp : Except String Response) (st : FetchState) :
    List Effect × PageOut :=
  match resp with
  | .error m => ([], .exc m)
  | .ok r =>
    let excerpt := pageExcerpt r
    if r.status ≠ 200 then
      ([.status (.httpError r.status excerpt)], .fail)
    else if excerpt = "" then
      ([.status (.emptyResponse r.status)], .fail)
    else
      match r.parsed with
      | none =>
        if strContains "Missing authentication" excerpt
            || strContains "login_required" (strToLower excerpt) then
          ([.status (.jsonErrorAuth excerpt)], .fail)
        else
          ([.status (.jsonError r.parseMsg excerpt)], .fail)
      | some (.list ps) =>
        let posts := st.posts ++ ps
        let cur := posts.length
        ([.progress cur (if st.hasTotal then st.totalCount else 0),
          .status (.receivedPosts cur
            (if st.hasTotal then " / " ++ toString st.totalCount else paginationNote))],
         .next ⟨posts, st.totalCount, st.hasTotal, st.pid⟩ (ps.length < 1000))
      | some (.dict success message post attrCount) =>
        if success.getD true = false then
          ([.status (.apiError (message.getD apiErrDefault))], .fail)
        else
          let nps := post.getD []
          let tc := if st.totalCount = 0 then attrCount.getD nps.length else st.totalCount
          let ht := if st.totalCount = 0 then true else st.hasTotal
          let posts := st.posts ++ nps
          let cur := posts.length
          ([.progress cur (if ht then tc else 0),
            .status (.receivedPosts cur
              (if ht then " / " ++ toString tc else paginationNote))],
           .next ⟨posts, tc, ht, st.pid⟩ (nps.length < 1000))
      | some (.other t) =>
        ([.status (.unexpectedType t excerpt)], .fail)

/-- Result of the whole fetch loop. -/
inductive FetchOut where
  | ok (posts : List Post) (hasTotal : Bool) (totalCount : Nat) : FetchOut
  | failed : FetchOut
  | exc (msg : String) : FetchOut
  | fuelOut : FetchOut
deriving DecidableEq, Repr

/-- Lines 53-102: the `while True` pagination loop, fuelled (the Python
loop has no bound; `fuelOut` marks exhausted fuel, i.e. divergence). -/
def fetchLoop (pages : Nat → Except String Response) :
    Nat → FetchState → List Effect × FetchOut
  | 0, _ => ([], .fuelOut)
  | fuel + 1, st =>
    let pr := processPage (pages st.pid) st
    let effs := Effect.requestPage st.pid :: pr.1
    match pr.2 with
    | .fail => (effs, .failed)
    | .exc m => (effs, .exc m)
    | .next st' true => (effs, .ok st'.posts st'.hasTotal st'.totalCount)
    | .next st' false =>
      let rest := fetchLoop pages fuel ⟨st'.posts, st'.totalCount, st'.hasTotal, st'.pid + 1⟩
      (effs ++ rest.1, rest.2)

/-- The post list a response yields when it takes the success path
(status 200, non-empty stripped body, parses as a list, or as a dict
whose `success` flag is not false). -/
def pageNewPosts (r : Response) : Option (List Post) :=
  if r.status ≠ 200 then none
  else if pageExcerpt r = "" then none
  else
    match r.parsed with
    | none => none
    | some (.list ps) => some ps
    | some (.dict success _ post _) =>
      if success.getD true = false then none else some (post.getD [])
    | some (.other _) => none

/-- Download-phase configuration: destination root and allowed extensions. -/
structure DlCfg where
  downloadDir : String
  allowedExts : List String

/-- Download-phase environment: per-URL outcome of the guarded block
(`requests.get` + `raise_for_status` + streamed write); `none` means
success, `some m` the caught exception's message. -/
structure DlEnv where
  dlRes : String → Option String

/-- The two per-run counters of the download loop. -/
structure DlState where
  processed : Nat
  downloaded : Nat
deriving DecidableEq, Repr

def videoExts : List String := [".mp4", ".webm", ".avi", ".mov", ".swf"]

/-- Lines 116-164: handle one post of the batch. -/
def postStep (cfg : DlCfg) (env : DlEnv) (total : Nat) (st : DlState)
    (p : Post) : List Effect × DlState :=
  let processed := st.processed + 1
  let prog : Effect := .progress processed total
  match p with
  | .raw => ([prog], ⟨processed, st.downloaded⟩)
  | .obj fileUrl pid =>
    match fileUrl with
    | none => ([prog], ⟨processed, st.downloaded⟩)
    | some url =>
      if url = "" then ([prog], ⟨processed, st.downloaded⟩)
      else
        let postId := pid.getD ""
        let filename := deriveFilename postId url
        let ext := strToLower (splitextExt filename)
        if ext ∉ cfg.allowedExts then
          ([prog], ⟨processed, st.downloaded⟩)
        else
          let subdir :=
            if ext = ".gif" then "GIF"
            else if ext ∈ videoExts then "videos"
            else "images"
          let subdirPath := cfg.downloadDir ++ "/" ++ subdir
          let filepath := subdirPath ++ "/" ++ filename
          match env.dlRes url with
          | none =>
            let downloaded := st.downloaded + 1
            let aggr : List Effect :=
              if processed % 10 = 0 then
                [.status (.processedDownloaded processed total downloaded)]
              else []
            ([.mkDir subdirPath, .writeFile filepath] ++ aggr ++ [prog],
             ⟨processed, downloaded⟩)
          | some m =>
            ([.mkDir subdirPath, .status (.downloadError url m), prog],
             ⟨processed, st.downloaded⟩)

/-- The download loop over the accumulated batch. -/
def downloadLoop (cfg : DlCfg) (env : DlEnv) (total : Nat) :
    List Post → DlState → List Effect × DlState
  | [], st => ([], st)
  | p :: ps, st =>
    let e1 := postStep cfg env total st p
    let e2 := downloadLoop cfg env total ps e1.2
    (e1.1 ++ e2.1, e2.2)

/-- Whole-run environment. -/
structure RunEnv where
  pages : Nat → Except String Response
  dl : DlEnv

/-- How the `try` body of `Worker.run` exits. -/
inductive RunExit where
  | normal : RunExit
  | raised (msg : String) : RunExit
  | diverged : RunExit
deriving DecidableEq, Repr

def initFetch : FetchState := ⟨[], 0, false, 0⟩

/-- Lines 34-167: the body of the top-level `try` in `Worker.run`. -/
def Worker.runBody (cfg : DlCfg) (env : RunEnv) (fuel : Nat) :
    List Effect × RunExit :=
  let head : List Effect := [.status .gettingPosts]
  let fr := fetchLoop env.pages fuel initFetch
  match fr.2 with
  | .failed => (head ++ fr.1, .normal)
  | .exc m => (head ++ fr.1, .raised m)
  | .fuelOut => (head ++ fr.1, .diverged)
  | .ok posts _ _ =>
    if posts.length = 0 then (head ++ fr.1 ++ [.status .noPosts], .normal)
    else
      let total := posts.length
      let dr := downloadLoop cfg env.dl total posts ⟨0, 0⟩
      let skipped := total - dr.2.downloaded
      (head ++ fr.1 ++ [.status .startingDownload] ++ dr.1 ++
        [.status (.finished dr.2.processed total dr.2.downloaded skipped cfg.downloadDir)],
       .normal)

/-- Lines 32-169: `Worker.run` — the body wrapped in the catch-all that
emits the generic failure status. -/
def Worker.run (cfg : DlCfg) (env : RunEnv) (fuel : Nat) : List Effect :=
  let b := Worker.runBody cfg env fuel
  match b.2 with
  | .raised m => b.1 ++ [.status (.unexpectedError m)]
  | _ => b.1

/-- Counter sanity of one emitted download-phase effect. -/
def countersOkB (total : Nat) : Effect → Bool
  | .progress c t => decide (c ≤ total) && decide (t = total)
  | .status (.processedDownloaded p t d) =>
    decide (d ≤ p) && decide (p ≤ t) && decide (t = total)
  | _ => true

/-- Is this effect the periodic aggregate status event? -/
def isAggB : Effect → Bool
  | .status (.processedDownloaded _ _ _) => true
  | _ => false

/-! ### Concrete inputs used by counterexamples and witnesses -/

/-- A short page on the success path: one post, bare-list body. -/
def rShort : Response :=
  ⟨200, "[\x7b\x7d]", some (.list [Post.obj (some "http://h/a.jpg") (some "1")]), ""⟩

def pagesShort : Nat → Except String Response := fun _ => .ok rShort

/-- A 200 response whose body is not JSON and mentions authentication in
lower case only. -/
def respAuthLower : Response :=
  ⟨200, "missing authentication", none, "Expecting value"⟩

/-- A 200 response that is not JSON and names the auth requirement with
different casing. -/
def respAuthCased : Response := ⟨200, "login_REQUIRED", none, "Expecting value"⟩

/-- A keyed first page with two posts and no `@attributes` object. -/
def respNoAttr : Response :=
  ⟨200, "\x7b\"post\": [\x7b\x7d, \x7b\x7d]\x7d",
   some (.dict none none
     (some [Post.obj (some "http://h/a.jpg") (some "1"),
            Post.obj (some "http://h/b.jpg") (some "2")]) none), ""⟩

def pagesNoAttr : Nat → Except String Response := fun _ => .ok respNoAttr

/-- A keyed page carrying a server-reported count. -/
def respWithCount : Response :=
  ⟨200, "\x7b\"@attributes\": \x7b\"count\": 5\x7d\x7d",
   some (.dict none none
     (some [Post.obj (some "http://h/a.jpg") (some "1")]) (some 5)), ""⟩

/-- An HTTP 500 failure page. -/
def pagesFail : Nat → Except String Response := fun _ => .ok ⟨500, "Server Error", none, ""⟩

/-- `requests.get` raising a connection error. -/
def pagesRaise : Nat → Except String Response := fun _ => .error "ConnectionError"

def cfgJpg : DlCfg := ⟨"downloads", [".jpg"]⟩

/-- The largest allowed-extension set the UI can build (all three
checkboxes ticked, lines 317-323). -/
def cfgAll : DlCfg :=
  ⟨"downloads", [".jpg", ".jpeg", ".png", ".bmp", ".webp", ".tga", ".gif",
    ".mp4", ".webm", ".avi", ".mov", ".swf"]⟩

def envOk : DlEnv := ⟨fun _ => none⟩

def envBad : DlEnv := ⟨fun _ => some "boom"⟩

def runEnvFail : RunEnv := ⟨pagesFail, envOk⟩

def runEnvRaise : RunEnv := ⟨pagesRaise, envOk⟩

/-! ### Fetch-phase lemmas -/

theorem processPage_fail_status (resp : Except String Response) (st : FetchState)
    (h : (processPage resp st).2 = .fail) :
    ∃ m, (processPage resp st).1 = [.status m] := by
  cases resp with
  | error m => simp [processPage] at h
  | ok r =>
    by_cases h200 : r.status = 200
    · by_cases hemp : pageExcerpt r = ""
      · exact ⟨.emptyResponse r.status, by simp [processPage, h200, hemp]⟩
      · cases hp : r.parsed with
        | none =>
          by_cases hauth : (strContains "Missing authentication" (pageExcerpt r)
              || strContains "login_required" (strToLower (pageExcerpt r))) = true
          · exact ⟨.jsonErrorAuth (pageExcerpt r), by simp [processPage, h200, hemp, hp, hauth]⟩
          · exact ⟨.jsonError r.parseMsg (pageExcerpt r), by simp [processPage, h200, hemp, hp, hauth]⟩
        | some d =>
          cases d with
          | list ps => simp [processPage, h200, hemp, hp] at h
          | dict succ msg post attrC =>
            by_cases hs : succ.getD true = false
            · exact ⟨.apiError (msg.getD apiErrDefault), by simp [processPage, h200, hemp, hp, hs]⟩
            · simp [processPage, h200, hemp, hp, hs] at h
          | other t => exact ⟨.unexpectedType t (pageExcerpt r), by simp [processPage, h200, hemp, hp]⟩
    · exact ⟨.httpError r.status (pageExcerpt r), by simp [processPage, h200]⟩

theorem processPage_success (r : Response) (st : FetchState) (nps : List Post)
    (h : pageNewPosts r = some nps) :
    ∃ tot ts tc ht,
      processPage (.ok r) st =
        ([.progress (st.posts ++ nps).length tot,
          .status (.receivedPosts (st.posts ++ nps).length ts)],
         .next ⟨st.posts ++ nps, tc, ht, st.pid⟩ (decide (nps.length < 1000))) := by
  by_cases h200 : r.status = 200
  · by_cases hemp : pageExcerpt r = ""
    · simp [pageNewPosts, h200, hemp] at h
    · cases hp : r.parsed with
      | none => simp [pageNewPosts, h200, hemp, hp] at h
      | some d =>
        cases d with
        | list ps =>
          simp [pageNewPosts, h200, hemp, hp] at h
          subst h
          exact ⟨if st.hasTotal then st.totalCount else 0,
            if st.hasTotal then " / " ++ toString st.totalCount else paginationNote,
            st.totalCount, st.hasTotal, by simp [processPage, h200, hemp, hp]⟩
        | dict succ msg post attrC =>
          by_cases hs : succ.getD true = false
          · simp [pageNewPosts, h200, hemp, hp, hs] at h
          · simp [pageNewPosts, h200, hemp, hp, hs] at h
            subst h
            refine ⟨if (if st.totalCount = 0 then true else st.hasTotal) then
                (if st.totalCount = 0 then attrC.getD (post.getD []).length else st.totalCount) else 0,
              if (if st.totalCount = 0 then true else st.hasTotal) then
                " / " ++ toString (if st.totalCount = 0 then attrC.getD (post.getD []).length else st.totalCount)
              else paginationNote,
              if st.totalCount = 0 then attrC.getD (post.getD []).length else st.totalCount,
              if st.totalCount = 0 then true else st.hasTotal, ?_⟩
            simp [processPage, h200, hemp, hp, hs]
        | other t => simp [pageNewPosts, h200, hemp, hp] at h
  · simp [pageNewPosts, h200] at h

theorem fetchLoop_failed_getLast (pages : Nat → Except String Response) :
    ∀ (fuel : Nat) (st : FetchState),
      (fetchLoop pages fuel st).2 = .failed →
      ∃ m, (fetchLoop pages fuel st).1.getLast? = some (.status m) := by
  intro fuel
  induction fuel with
  | zero => intro st h; simp [fetchLoop] at h
  | succ n ih =>
    intro st h
    simp only [fetchLoop] at h ⊢
    cases hpo : (processPage (pages st.pid) st).2 with
    | fail =>
      obtain ⟨m, hm⟩ := processPage_fail_status _ _ hpo
      exact ⟨m, by simp [hpo, hm]⟩
    | exc m => simp [hpo] at h
    | next st' short =>
      cases short with
      | true => simp [hpo] at h
      | false =>
        simp only [hpo] at h ⊢
        obtain ⟨m, hm⟩ := ih _ h
        refine ⟨m, ?_⟩
        have hne : (fetchLoop pages n ⟨st'.posts, st'.totalCount, st'.hasTotal, st'.pid + 1⟩).1 ≠ [] := by
          intro hnil
          rw [hnil] at hm
          simp at hm
        rw [List.getLast?_append_of_ne_nil _ hne]
        exact hm

/-! ### Download-phase lemmas -/

theorem postStep_state (cfg : DlCfg) (env : DlEnv) (total : Nat)
    (st : DlState) (p : Post) :
    (postStep cfg env total st p).2.processed = st.processed + 1 ∧
    st.downloaded ≤ (postStep cfg env total st p).2.downloaded ∧
    (postStep cfg env total st p).2.downloaded ≤ st.downloaded + 1 := by
  cases p with
  | raw => simp [postStep]
  | obj fileUrl pid =>
    cases fileUrl with
    | none => simp [postStep]
    | some url =>
      by_cases hurl : url = ""
      · simp [postStep, hurl]
      · by_cases hext : strToLower (splitextExt (deriveFilename (pid.getD "") url))
            ∈ cfg.allowedExts
        · cases hdl : env.dlRes url with
          | none => simp [postStep, hurl, hext, hdl]
          | some m => simp [postStep, hurl, hext, hdl]
        · simp [postStep, hurl, hext]

theorem postStep_events (cfg : DlCfg) (env : DlEnv) (total : Nat)
    (st : DlState) (p : Post)
    (hle : st.downloaded ≤ st.processed) (hlt : st.processed + 1 ≤ total) :
    (postStep cfg env total st p).1.all (countersOkB total) = true := by
  cases p with
  | raw => simp [postStep, countersOkB, hlt]
  | obj fileUrl pid =>
    cases fileUrl with
    | none => simp [postStep, countersOkB, hlt]
    | some url =>
      by_cases hurl : url = ""
      · simp [postStep, hurl, countersOkB, hlt]
      · by_cases hext : strToLower (splitextExt (deriveFilename (pid.getD "") url))
            ∈ cfg.allowedExts
        · cases hdl : env.dlRes url with
          | none =>
            by_cases hmod : (st.processed + 1) % 10 = 0
            · simp [postStep, hurl, hext, hdl, hmod, countersOkB, hlt]
              omega
            · simp [postStep, hurl, hext, hdl, hmod, countersOkB, hlt]
          | some m =>
            simp [postStep, hurl, hext, hdl, countersOkB, hlt]
        · simp [postStep, hurl, hext, countersOkB, hlt]

theorem downloadLoop_inv (cfg : DlCfg) (env : DlEnv) (total : Nat) :
    ∀ (rem : List Post) (st : DlState),
      st.downloaded ≤ st.processed → st.processed + rem.length = total →
      (downloadLoop cfg env total rem st).2.processed = total ∧
      (downloadLoop cfg env total rem st).2.downloaded ≤
        (downloadLoop cfg env total rem st).2.processed ∧
      (downloadLoop cfg env total rem st).1.all (countersOkB total) = true := by
  intro rem
  induction rem with
  | nil =>
    intro st h1 h2
    simp only [List.length_nil, Nat.add_zero] at h2
    simp [downloadLoop]
    omega
  | cons p ps ih =>
    intro st h1 h2
    obtain ⟨hp1, hp2, hp3⟩ := postStep_state cfg env total st p
    have hlen : st.processed + (ps.length + 1) = total := by
      simpa [List.length_cons] using h2
    have hlt : st.processed + 1 ≤ total := by omega
    have hd1 : (postStep cfg env total st p).2.downloaded ≤
        (postStep cfg env total st p).2.processed := by omega
    have hd2 : (postStep cfg env total st p).2.processed + ps.length = total := by
      omega
    obtain ⟨hr1, hr2, hr3⟩ := ih (postStep cfg env total st p).2 hd1 hd2
    refine ⟨?_, ?_, ?_⟩
    · simpa [downloadLoop] using hr1
    · simpa [downloadLoop] using hr2
    · show ((postStep cfg env total st p).1 ++
          (downloadLoop cfg env total ps (postStep cfg env total st p).2).1).all
          (countersOkB total) = true
      rw [List.all_append]
      rw [postStep_events cfg env total st p h1 hlt, hr3]
      rfl

/-! ### Filename lemmas -/

theorem lastIdxOf_mem (c : Char) : ∀ (cs : List Char) (i : Nat),
    lastIdxOf c cs = some i → c ∈ cs.drop i := by
  intro cs
  induction cs with
  | nil => intro i h; simp [lastIdxOf] at h
  | cons x xs ih =>
    intro i h
    simp only [lastIdxOf] at h
    cases hx : lastIdxOf c xs with
    | some j =>
      rw [hx] at h
      injection h with h
      subst h
      simpa using ih j hx
    | none =>
      rw [hx] at h
      by_cases hxc : x = c
      · rw [if_pos hxc] at h
        injection h with h
        subst h
        simp [hxc]
      · rw [if_neg hxc] at h
        exact absurd h (by simp)

theorem splitextExt_of_no_dot (p : String) (h : '.' ∉ (pyBasename p).data) :
    splitextExt p = "" := by
  simp only [splitextExt]
  cases hd : lastIdxOf '.' p.data with
  | none => rfl
  | some d =>
    have hmem : '.' ∈ p.data.drop d := lastIdxOf_mem '.' p.data d hd
    have hfs : ¬ (fnStart p.data ≤ d) := by
      intro hle
      apply h
      have hdd : p.data.drop d =
          (p.data.drop (fnStart p.data)).drop (d - fnStart p.data) := by
        rw [List.drop_drop]
        congr 1
        omega
      rw [hdd] at hmem
      have hsub := List.drop_subset (d - fnStart p.data) (p.data.drop (fnStart p.data))
      have hmem2 : '.' ∈ p.data.drop (fnStart p.data) := hsub hmem
      simpa [pyBasename] using hmem2
    dsimp only
    rw [if_neg]
    intro hc
    exact hfs hc.1

theorem sanChar_not_illegal (c : Char) : sanChar c ∉ illegalChars := by
  unfold sanChar
  split
  · decide
  · assumption

theorem sanitize_data (s : String) : (sanitize s).data = s.data.map sanChar := rfl

theorem sanitize_clean (s : String) : ∀ c ∈ (sanitize s).data, c ∉ illegalChars := by
  intro c hc
  rw [sanitize_data] at hc
  obtain ⟨x, _, rfl⟩ := List.mem_map.1 hc
  exact sanChar_not_illegal x

theorem map_sanChar_of_clean (l : List Char) (h : ∀ c ∈ l, c ∉ illegalChars) :
    l.map sanChar = l := by
  have hmap : l.map sanChar = l.map id := by
    refine List.map_congr_left (fun a ha => ?_)
    unfold sanChar
    rw [if_neg (h a ha)]
    rfl
  rw [hmap, List.map_id]

/-! ### Claim theorems -/

/-- C1: whenever the response for the current page offset takes the success
path and yields fewer than 1000 posts, the fetch loop appends that page's
posts, emits the page's progress and status events, and terminates with the
accumulated batch: the trace holds no page request beyond the current one,
regardless of the accumulated posts or any server-reported count. -/
theorem c1_short_page_stops (pages : Nat → Except String Response)
    (fuel : Nat) (st : FetchState) (r : Response) (nps : List Post)
    (hpage : pages st.pid = .ok r)
    (hnew : pageNewPosts r = some nps)
    (hshort : nps.length < 1000) :
    ∃ tot ts ht tc,
      fetchLoop pages (fuel + 1) st =
        ([.requestPage st.pid,
          .progress (st.posts ++ nps).length tot,
          .status (.receivedPosts (st.posts ++ nps).length ts)],
         .ok (st.posts ++ nps) ht tc) := by
  obtain ⟨tot, ts, tc, ht, heq⟩ := processPage_success r st nps hnew
  refine ⟨tot, ts, ht, tc, ?_⟩
  simp only [fetchLoop, hpage, heq]
  simp [decide_eq_true hshort]

/-- Witness for C1: a single bare-list page with one post stops after page 0. -/
theorem c1_short_page_stops_witness :
    pagesShort 0 = .ok rShort ∧
    pageNewPosts rShort = some [Post.obj (some "http://h/a.jpg") (some "1")] ∧
    ([Post.obj (some "http://h/a.jpg") (some "1")] : List Post).length < 1000 ∧
    ∃ tot ts ht tc,
      fetchLoop pagesShort 1 initFetch =
        ([.requestPage 0, .progress 1 tot, .status (.receivedPosts 1 ts)],
         .ok [Post.obj (some "http://h/a.jpg") (some "1")] ht tc) :=
  ⟨rfl, by decide, by decide,
   c1_short_page_stops pagesShort 0 initFetch rShort
     [Post.obj (some "http://h/a.jpg") (some "1")] rfl (by decide) (by decide)⟩

/-- C2: the catch-all converts any exception escaping the run body into a
single generic failure status appended to the trace, and a fetch-phase
failure ends the run right after its terminal status event (the run's last
emitted effect is that status; no download-phase effect follows). -/
theorem c2_never_raises (cfg : DlCfg) (env : RunEnv) (fuel : Nat) :
    (∀ m, (Worker.runBody cfg env fuel).2 = .raised m →
        Worker.run cfg env fuel =
          (Worker.runBody cfg env fuel).1 ++ [.status (.unexpectedError m)]) ∧
    ((fetchLoop env.pages fuel initFetch).2 = .failed →
        Worker.run cfg env fuel =
          .status .gettingPosts :: (fetchLoop env.pages fuel initFetch).1 ∧
        ∃ m, (Worker.run cfg env fuel).getLast? = some (.status m)) := by
  constructor
  · intro m hm
    simp only [Worker.run, hm]
  · intro hf
    obtain ⟨m, hm⟩ := fetchLoop_failed_getLast env.pages fuel initFetch hf
    have hne : (fetchLoop env.pages fuel initFetch).1 ≠ [] := by
      intro hnil
      rw [hnil] at hm
      simp at hm
    have hrun : Worker.run cfg env fuel =
        .status .gettingPosts :: (fetchLoop env.pages fuel initFetch).1 := by
      simp only [Worker.run, Worker.runBody, hf]
      simp
    refine ⟨hrun, m, ?_⟩
    rw [hrun]
    have hsingle : Effect.status .gettingPosts :: (fetchLoop env.pages fuel initFetch).1 =
        [Effect.status .gettingPosts] ++ (fetchLoop env.pages fuel initFetch).1 := by
      simp
    rw [hsingle, List.getLast?_append_of_ne_nil _ hne]
    exact hm

/-- Witness for C2: the raised branch on a connection error and the
fetch-failed branch on an HTTP 500. -/
theorem c2_never_raises_witness :
    ((Worker.runBody cfgJpg runEnvRaise 1).2 = .raised "ConnectionError" ∧
      Worker.run cfgJpg runEnvRaise 1 =
        (Worker.runBody cfgJpg runEnvRaise 1).1 ++
          [.status (.unexpectedError "ConnectionError")]) ∧
    ((fetchLoop runEnvFail.pages 1 initFetch).2 = .failed ∧
      Worker.run cfgJpg runEnvFail 1 =
        .status .gettingPosts :: (fetchLoop runEnvFail.pages 1 initFetch).1 ∧
      ∃ m, (Worker.run cfgJpg runEnvFail 1).getLast? = some (.status m)) :=
  ⟨⟨by decide, (c2_never_raises cfgJpg runEnvRaise 1).1 "ConnectionError" (by decide)⟩,
   ⟨by decide, (c2_never_raises cfgJpg runEnvFail 1).2 (by decide)⟩⟩

/-- C3: a batch record that is not a dict, or whose file URL is absent or
falsy, increments `processed` but not `downloaded`, still gets a progress
event, and the loop carries on with the remaining items. -/
theorem c3_no_url_skips (cfg : DlCfg) (env : DlEnv) (total : Nat)
    (st : DlState) (p : Post)
    (h : p = Post.raw ∨ (∃ q, p = Post.obj none q) ∨ (∃ q, p = Post.obj (some "") q)) :
    postStep cfg env total st p =
      ([.progress (st.processed + 1) total], ⟨st.processed + 1, st.downloaded⟩) ∧
    ∀ rest, downloadLoop cfg env total (p :: rest) st =
      (Effect.progress (st.processed + 1) total ::
        (downloadLoop cfg env total rest ⟨st.processed + 1, st.downloaded⟩).1,
       (downloadLoop cfg env total rest ⟨st.processed + 1, st.downloaded⟩).2) := by
  have hstep : postStep cfg env total st p =
      ([.progress (st.processed + 1) total], ⟨st.processed + 1, st.downloaded⟩) := by
    rcases h with rfl | ⟨q, rfl⟩ | ⟨q, rfl⟩
    · simp [postStep]
    · simp [postStep]
    · simp [postStep]
  refine ⟨hstep, fun rest => ?_⟩
  simp [downloadLoop, hstep]

/-- Witness for C3: a URL-less dict record is processed, not downloaded. -/
theorem c3_no_url_skips_witness :
    ((Post.obj none (some "9") : Post) = Post.raw ∨
      (∃ q, (Post.obj none (some "9") : Post) = Post.obj none q) ∨
      (∃ q, (Post.obj none (some "9") : Post) = Post.obj (some "") q)) ∧
    (postStep cfgJpg envOk 4 ⟨2, 1⟩ (Post.obj none (some "9")) =
      ([.progress 3 4], ⟨3, 1⟩) ∧
    ∀ rest, downloadLoop cfgJpg envOk 4 (Post.obj none (some "9") :: rest) ⟨2, 1⟩ =
      (Effect.progress 3 4 :: (downloadLoop cfgJpg envOk 4 rest ⟨3, 1⟩).1,
       (downloadLoop cfgJpg envOk 4 rest ⟨3, 1⟩).2)) :=
  ⟨Or.inr (Or.inl ⟨some "9", rfl⟩),
   c3_no_url_skips cfgJpg envOk 4 ⟨2, 1⟩ (Post.obj none (some "9"))
     (Or.inr (Or.inl ⟨some "9", rfl⟩))⟩

/-- C9: over the whole download loop started on the batch, the final
`processed` equals the batch length, `downloaded` never exceeds
`processed` (so the reported `skipped = total - downloaded` is
non-negative), every emitted event's counters satisfy
`downloaded ≤ processed ≤ total`, and each item advances `processed` by
exactly one. -/
theorem c9_counter_invariants (cfg : DlCfg) (env : DlEnv) (posts : List Post) :
    (downloadLoop cfg env posts.length posts ⟨0, 0⟩).2.processed = posts.length ∧
    (downloadLoop cfg env posts.length posts ⟨0, 0⟩).2.downloaded ≤
      (downloadLoop cfg env posts.length posts ⟨0, 0⟩).2.processed ∧
    (downloadLoop cfg env posts.length posts ⟨0, 0⟩).1.all
      (countersOkB posts.length) = true ∧
    ∀ (st : DlState) (p : Post),
      (postStep cfg env posts.length st p).2.processed = st.processed + 1 := by
  have h := downloadLoop_inv cfg env posts.length posts ⟨0, 0⟩ (Nat.le_refl 0) (by simp)
  exact ⟨h.1, h.2.1, h.2.2, fun st p => (postStep_state cfg env posts.length st p).1⟩

/-- C4 counterexample: a 200 response whose non-JSON body matches
'Missing authentication' case-insensitively (it reads
"missing authentication") is reported with the generic parse error, not
the auth-specific variant. -/
theorem c4_case_insensitive_cex :
    strContains (strToLower "Missing authentication")
      (strToLower (pageExcerpt respAuthLower)) = true ∧
    processPage (.ok respAuthLower) initFetch =
      ([.status (.jsonError "Expecting value" "missing authentication")], .fail) := by
  constructor
  · decide
  · decide

/-- C4 amended: on a parse failure the auth-specific variant is reported
and the fetch terminates when the excerpt contains 'Missing
authentication' case-sensitively, or 'login_required' case-insensitively. -/
theorem c4_auth_variant (r : Response) (st : FetchState)
    (h200 : r.status = 200) (hemp : pageExcerpt r ≠ "")
    (hp : r.parsed = none)
    (hauth : strContains "Missing authentication" (pageExcerpt r) = true ∨
      strContains "login_required" (strToLower (pageExcerpt r)) = true) :
    processPage (.ok r) st = ([.status (.jsonErrorAuth (pageExcerpt r))], .fail) := by
  have hb : (strContains "Missing authentication" (pageExcerpt r)
      || strContains "login_required" (strToLower (pageExcerpt r))) = true := by
    rcases hauth with h | h <;> simp [h]
  simp [processPage, h200, hemp, hp, hb]

/-- Witness for the amended C4: "login_REQUIRED" in a non-JSON body yields
the auth variant. -/
theorem c4_auth_variant_witness :
    respAuthCased.status = 200 ∧ pageExcerpt respAuthCased ≠ "" ∧
    respAuthCased.parsed = none ∧
    strContains "login_required" (strToLower (pageExcerpt respAuthCased)) = true ∧
    processPage (.ok respAuthCased) initFetch =
      ([.status (.jsonErrorAuth (pageExcerpt respAuthCased))], .fail) :=
  ⟨rfl, by decide, rfl, by decide,
   c4_auth_variant respAuthCased initFetch rfl (by decide) rfl (Or.inr (by decide))⟩

/-- C5 counterexample: a keyed first page with no `@attributes` object (so
the total is server-unreported) still yields a progress event with
total = 2, the page's own length — not the indeterminate 0 the claim
requires for an unknown total. -/
theorem c5_total_default_cex :
    respNoAttr.parsed = some (.dict none none
      (some [Post.obj (some "http://h/a.jpg") (some "1"),
             Post.obj (some "http://h/b.jpg") (some "2")]) none) ∧
    fetchLoop pagesNoAttr 1 initFetch =
      ([.requestPage 0, .progress 2 2, .status (.receivedPosts 2 " / 2")],
       .ok [Post.obj (some "http://h/a.jpg") (some "1"),
            Post.obj (some "http://h/b.jpg") (some "2")] true 2) := by
  constructor
  · rfl
  · decide

/-- C5 amended: a keyed page is consulted for the count whenever the
accumulated total is still zero (not only on the first page), the count
defaults to the page's post length when `@attributes`/`count` is absent —
marking the total as known either way — and the progress event reports 0
exactly when no keyed page has yet set the total. -/
theorem c5_total_read (r : Response) (st : FetchState)
    (succ : Option Bool) (msgO : Option String)
    (postF : Option (List Post)) (attrC : Option Nat)
    (h200 : r.status = 200) (hemp : pageExcerpt r ≠ "")
    (hp : r.parsed = some (.dict succ msgO postF attrC))
    (hs : succ.getD true = true) :
    processPage (.ok r) st =
      ([.progress (st.posts ++ postF.getD []).length
          (if (if st.totalCount = 0 then true else st.hasTotal) then
            (if st.totalCount = 0 then attrC.getD (postF.getD []).length
             else st.totalCount)
           else 0),
        .status (.receivedPosts (st.posts ++ postF.getD []).length
          (if (if st.totalCount = 0 then true else st.hasTotal) then
            " / " ++ toString (if st.totalCount = 0 then
              attrC.getD (postF.getD []).length else st.totalCount)
           else paginationNote))],
       .next ⟨st.posts ++ postF.getD [],
         if st.totalCount = 0 then attrC.getD (postF.getD []).length
         else st.totalCount,
         if st.totalCount = 0 then true else st.hasTotal, st.pid⟩
         (decide ((postF.getD []).length < 1000))) := by
  have hs' : ¬ (succ.getD true = false) := by simp [hs]
  simp [processPage, h200, hemp, hp, hs']

/-- Witness for the amended C5: a keyed page with a reported count of 5. -/
theorem c5_total_read_witness :
    respWithCount.status = 200 ∧ pageExcerpt respWithCount ≠ "" ∧
    respWithCount.parsed = some (.dict none none
      (some [Post.obj (some "http://h/a.jpg") (some "1")]) (some 5)) ∧
    (none : Option Bool).getD true = true ∧
    processPage (.ok respWithCount) initFetch =
      ([.progress 1 5, .status (.receivedPosts 1 (" / " ++ toString 5))],
       .next ⟨[Post.obj (some "http://h/a.jpg") (some "1")], 5, true, 0⟩
         (decide (([Post.obj (some "http://h/a.jpg") (some "1")] :
           List Post).length < 1000))) :=
  ⟨rfl, by decide, rfl, rfl,
   c5_total_read respWithCount initFetch none none
     (some [Post.obj (some "http://h/a.jpg") (some "1")]) (some 5)
     rfl (by decide) rfl rfl⟩

/-- C6 counterexample: ten processed items, none downloaded (all raw
records): the 10th processed item emits no aggregate status event, though
the claim requires one after every 10th processed item regardless of
outcome. -/
theorem c6_aggregate_cex :
    (downloadLoop cfgJpg envOk 10 (List.replicate 10 Post.raw) ⟨0, 0⟩).2.processed
      = 10 ∧
    (downloadLoop cfgJpg envOk 10 (List.replicate 10 Post.raw) ⟨0, 0⟩).1.all
      (fun e => !(isAggB e)) = true := by
  constructor
  · decide
  · decide

/-- C6 amended: after every item a progress event is emitted last,
whatever the outcome; the aggregate (processed, total, downloaded) status
event fires after an item only when that item's download succeeded and the
new processed count is a multiple of 10 — a failed download emits no
aggregate event even on a 10th item. -/
theorem c6_aggregate_only_on_success (cfg : DlCfg) (env : DlEnv) (total : Nat)
    (st : DlState) (p : Post) :
    ((postStep cfg env total st p).1.getLast? =
        some (.progress (st.processed + 1) total)) ∧
    (∀ url pidv, p = Post.obj (some url) pidv → url ≠ "" →
      strToLower (splitextExt (deriveFilename (pidv.getD "") url)) ∈ cfg.allowedExts →
      env.dlRes url = none → (st.processed + 1) % 10 = 0 →
      Effect.status (.processedDownloaded (st.processed + 1) total (st.downloaded + 1))
        ∈ (postStep cfg env total st p).1) ∧
    (∀ url pidv m, p = Post.obj (some url) pidv → env.dlRes url = some m →
      (postStep cfg env total st p).1.all (fun e => !(isAggB e)) = true) := by
  refine ⟨?_, ?_, ?_⟩
  · cases p with
    | raw => simp [postStep]
    | obj fileUrl pid =>
      cases fileUrl with
      | none => simp [postStep]
      | some url =>
        by_cases hurl : url = ""
        · simp [postStep, hurl]
        · by_cases hext : strToLower (splitextExt (deriveFilename (pid.getD "") url))
              ∈ cfg.allowedExts
          · cases hdl : env.dlRes url with
            | none =>
              by_cases hmod : (st.processed + 1) % 10 = 0
              · simp [postStep, hurl, hext, hdl, hmod]
              · simp [postStep, hurl, hext, hdl, hmod]
            | some m => simp [postStep, hurl, hext, hdl]
          · simp [postStep, hurl, hext]
  · rintro url pidv rfl hurl hext hdl hmod
    simp [postStep, hurl, hext, hdl, hmod]
  · rintro url pidv m rfl hdl
    by_cases hurl : url = ""
    · simp [postStep, hurl, isAggB]
    · by_cases hext : strToLower (splitextExt (deriveFilename (pidv.getD "") url))
          ∈ cfg.allowedExts
      · simp [postStep, hurl, hext, hdl, isAggB]
      · simp [postStep, hurl, hext, isAggB]

/-- Witness for the amended C6: a successful 10th item emits the
aggregate event, a failing download on the same item does not. -/
theorem c6_aggregate_only_on_success_witness :
    ((postStep cfgJpg envOk 30 ⟨9, 3⟩
        (Post.obj (some "http://h/a.jpg") (some "5"))).1.getLast? =
      some (.progress 10 30)) ∧
    (Effect.status (.processedDownloaded 10 30 4) ∈
      (postStep cfgJpg envOk 30 ⟨9, 3⟩
        (Post.obj (some "http://h/a.jpg") (some "5"))).1) ∧
    ((postStep cfgJpg envBad 30 ⟨9, 3⟩
        (Post.obj (some "http://h/a.jpg") (some "5"))).1.all
      (fun e => !(isAggB e)) = true) :=
  ⟨(c6_aggregate_only_on_success cfgJpg envOk 30 ⟨9, 3⟩
      (Post.obj (some "http://h/a.jpg") (some "5"))).1,
   (c6_aggregate_only_on_success cfgJpg envOk 30 ⟨9, 3⟩
      (Post.obj (some "http://h/a.jpg") (some "5"))).2.1
      "http://h/a.jpg" (some "5") rfl (by decide) (by decide) rfl (by decide),
   (c6_aggregate_only_on_success cfgJpg envBad 30 ⟨9, 3⟩
      (Post.obj (some "http://h/a.jpg") (some "5"))).2.2
      "http://h/a.jpg" (some "5") "boom" rfl rfl⟩

/-- C7: when the post identifier is free of the illegal characters and the
URL-derived basename contains one, the stored filename contains none of
`<>:"/\|?*` and starts with the post identifier, in both the synthesized
and the sanitizing branch. -/
theorem c7_filename_sanitized (postId url : String)
    (hId : ∀ c ∈ postId.data, c ∉ illegalChars)
    (hBad : ∃ c ∈ (pyBasename (urlparsePath url)).data, c ∈ illegalChars) :
    (∀ c ∈ (deriveFilename postId url).data, c ∉ illegalChars) ∧
    ∃ rest, (deriveFilename postId url).data = postId.data ++ rest := by
  by_cases hsyn : pyBasename (urlparsePath url) = "" ∨
      '.' ∉ (pyBasename (urlparsePath url)).data
  · have hnd : '.' ∉ (pyBasename (urlparsePath url)).data := by
      rcases hsyn with he | hnd
      · rw [he]; simp
      · exact hnd
    have hex := splitextExt_of_no_dot (urlparsePath url) hnd
    have hdf : deriveFilename postId url = postId ++ ".jpg" := by
      simp only [deriveFilename]
      rw [if_pos hsyn, hex]
      simp
    rw [hdf]
    constructor
    · intro c hc
      rw [String.data_append] at hc
      rcases List.mem_append.1 hc with h1 | h2
      · exact hId c h1
      · have hjpg : ∀ c ∈ (".jpg" : String).data, c ∉ illegalChars := by decide
        exact hjpg c h2
    · exact ⟨(".jpg" : String).data, String.data_append _ _⟩
  · have hdf : deriveFilename postId url =
        sanitize (postId ++ "_" ++ pyBasename (urlparsePath url)) := by
      simp only [deriveFilename]
      rw [if_neg hsyn]
    rw [hdf]
    refine ⟨sanitize_clean _,
      ("_" ++ pyBasename (urlparsePath url)).data.map sanChar, ?_⟩
    have h1 : (postId ++ "_" ++ pyBasename (urlparsePath url)).data =
        postId.data ++ ("_" ++ pyBasename (urlparsePath url)).data := by
      simp [String.data_append, List.append_assoc]
    rw [sanitize_data, h1, List.map_append, map_sanChar_of_clean postId.data hId]

/-- Witness for C7: id "123" and a basename carrying ':'. -/
theorem c7_filename_sanitized_witness :
    (∀ c ∈ ("123" : String).data, c ∉ illegalChars) ∧
    (∃ c ∈ (pyBasename (urlparsePath "http://h/a:b.png")).data, c ∈ illegalChars) ∧
    (∀ c ∈ (deriveFilename "123" "http://h/a:b.png").data, c ∉ illegalChars) ∧
    ∃ rest, (deriveFilename "123" "http://h/a:b.png").data =
      ("123" : String).data ++ rest :=
  ⟨by decide, by decide,
   (c7_filename_sanitized "123" "http://h/a:b.png" (by decide) (by decide)).1,
   (c7_filename_sanitized "123" "http://h/a:b.png" (by decide) (by decide)).2⟩

/-- C8: a post whose lower-cased extension is outside the allowed set is
skipped with only its progress event: no category is chosen, no mkdir (or
any other filesystem effect) happens, and `downloaded` is unchanged. -/
theorem c8_rejected_ext_no_dir (cfg : DlCfg) (env : DlEnv) (total : Nat)
    (st : DlState) (url : String) (pidv : Option String)
    (hurl : url ≠ "")
    (hext : strToLower (splitextExt (deriveFilename (pidv.getD "") url))
      ∉ cfg.allowedExts) :
    postStep cfg env total st (.obj (some url) pidv) =
      ([.progress (st.processed + 1) total], ⟨st.processed + 1, st.downloaded⟩) := by
  simp [postStep, hurl, hext]

/-- Witness for C8: a ".png" post against an allowed set of `{.jpg}`. -/
theorem c8_rejected_ext_no_dir_witness :
    ("http://h/a.png" : String) ≠ "" ∧
    strToLower (splitextExt (deriveFilename "7" "http://h/a.png"))
      ∉ cfgJpg.allowedExts ∧
    postStep cfgJpg envOk 3 ⟨0, 0⟩ (.obj (some "http://h/a.png") (some "7")) =
      ([.progress 1 3], ⟨1, 0⟩) :=
  ⟨by decide, by decide,
   c8_rejected_ext_no_dir cfgJpg envOk 3 ⟨0, 0⟩ "http://h/a.png" (some "7")
     (by decide) (by decide)⟩

/-- C10 counterexample: an id-less post in the synthesized branch gets the
filename ".jpg", whose computed extension is empty (leading-dot rule), so
even under the largest allowed-extension set the program can build and a
succeeding transfer, it is skipped — processed but not downloaded — while
the same URL with an id present ("123" → "123.jpg") does download. -/
theorem c10_missing_id_skips_cex :
    deriveFilename "" "http://h/noext" = ".jpg" ∧
    strToLower (splitextExt (deriveFilename "" "http://h/noext")) = "" ∧
    postStep cfgAll envOk 1 ⟨0, 0⟩ (.obj (some "http://h/noext") none) =
      ([.progress 1 1], ⟨1, 0⟩) ∧
    (postStep cfgAll envOk 1 ⟨0, 0⟩
      (.obj (some "http://h/noext") (some "123"))).2 = ⟨1, 1⟩ := by
  refine ⟨by decide, by decide, by decide, by decide⟩

/-- C10 amended: a post with a usable file URL but no `id` field is still
processed and the run does not error; the identifier defaults to "".  In
the ordinary branch the stored name is the sanitized '_'-prefixed basename
and the post downloads when its extension is allowed; in the synthesized
branch the name is the bare ".jpg", whose computed extension is empty, so
the post is skipped (never downloaded) whenever "" is not an allowed
extension — which holds for every set the program can build. -/
theorem c10_missing_id (cfg : DlCfg) (env : DlEnv) (total : Nat)
    (st : DlState) (url : String) (hurl : url ≠ "") :
    (postStep cfg env total st (.obj (some url) none)).2.processed =
      st.processed + 1 ∧
    deriveFilename "" url =
      (if pyBasename (urlparsePath url) = "" ∨
          '.' ∉ (pyBasename (urlparsePath url)).data
       then ".jpg"
       else sanitize ("_" ++ pyBasename (urlparsePath url))) ∧
    (¬ (pyBasename (urlparsePath url) = "" ∨
        '.' ∉ (pyBasename (urlparsePath url)).data) →
      strToLower (splitextExt (deriveFilename "" url)) ∈ cfg.allowedExts →
      env.dlRes url = none →
      (postStep cfg env total st (.obj (some url) none)).2 =
        ⟨st.processed + 1, st.downloaded + 1⟩) ∧
    ((pyBasename (urlparsePath url) = "" ∨
        '.' ∉ (pyBasename (urlparsePath url)).data) →
      ("" : String) ∉ cfg.allowedExts →
      postStep cfg env total st (.obj (some url) none) =
        ([.progress (st.processed + 1) total],
         ⟨st.processed + 1, st.downloaded⟩)) := by
  refine ⟨(postStep_state cfg env total st (.obj (some url) none)).1, ?_, ?_, ?_⟩
  · by_cases hsyn : pyBasename (urlparsePath url) = "" ∨
        '.' ∉ (pyBasename (urlparsePath url)).data
    · have hnd : '.' ∉ (pyBasename (urlparsePath url)).data := by
        rcases hsyn with he | hnd
        · rw [he]; simp
        · exact hnd
      have hex := splitextExt_of_no_dot (urlparsePath url) hnd
      rw [if_pos hsyn]
      simp only [deriveFilename]
      rw [if_pos hsyn, hex]
      rfl
    · rw [if_neg hsyn]
      simp only [deriveFilename]
      rw [if_neg hsyn]
      rfl
  · intro hord hext hdl
    simp [postStep, hurl, hext, hdl]
  · intro hsyn hnone
    have hnd : '.' ∉ (pyBasename (urlparsePath url)).data := by
      rcases hsyn with he | hnd
      · rw [he]; simp
      · exact hnd
    have hex := splitextExt_of_no_dot (urlparsePath url) hnd
    have hdf : deriveFilename "" url = ".jpg" := by
      simp only [deriveFilename]
      rw [if_pos hsyn, hex]
      rfl
    have hext : strToLower (splitextExt (deriveFilename "" url)) ∉ cfg.allowedExts := by
      rw [hdf]
      have hempty : strToLower (splitextExt ".jpg") = "" := by decide
      rw [hempty]
      exact hnone
    simp [postStep, hurl, hext]

/-- Witness for the amended C10: an id-less ordinary-branch ".jpg" post
downloads under "_"-naming, and an id-less extension-less URL is skipped. -/
theorem c10_missing_id_witness :
    ("http://h/x.jpg" : String) ≠ "" ∧
    (¬ (pyBasename (urlparsePath "http://h/x.jpg") = "" ∨
        '.' ∉ (pyBasename (urlparsePath "http://h/x.jpg")).data)) ∧
    strToLower (splitextExt (deriveFilename "" "http://h/x.jpg"))
      ∈ cfgJpg.allowedExts ∧
    envOk.dlRes "http://h/x.jpg" = none ∧
    (postStep cfgJpg envOk 2 ⟨0, 0⟩ (.obj (some "http://h/x.jpg") none)).2 =
      ⟨1, 1⟩ ∧
    ("http://h/noext" : String) ≠ "" ∧
    (pyBasename (urlparsePath "http://h/noext") = "" ∨
      '.' ∉ (pyBasename (urlparsePath "http://h/noext")).data) ∧
    ("" : String) ∉ cfgJpg.allowedExts ∧
    postStep cfgJpg envOk 2 ⟨0, 0⟩ (.obj (some "http://h/noext") none) =
      ([.progress 1 2], ⟨1, 0⟩) :=
  ⟨by decide, by decide, by decide, rfl,
   (c10_missing_id cfgJpg envOk 2 ⟨0, 0⟩ "http://h/x.jpg"
     (by decide)).2.2.1 (by decide) (by decide) rfl,
   by decide, by decide, by decide,
   (c10_missing_id cfgJpg envOk 2 ⟨0, 0⟩ "http://h/noext"
     (by decide)).2.2.2 (by decide) (by decide)⟩
